import Mathlib

/-!
Verification development for the Strava activities service.

The definitions below are a shallow embedding of the JavaScript source
(`server.js` and the DynamoDB gateway module).  JavaScript 32-bit bitwise
arithmetic is modelled on `Int`/`Nat` with explicit reduction modulo `2^32`;
fallible store operations are modelled with `Except`; the DynamoDB table is
modelled as an association list keyed by the numeric activity id; network
results (Strava fetches, geocoding tiers, DynamoDB errors) are supplied as
explicit oracle parameters so that every code path of the source is a total
function of its inputs.
-/

/-! ### JavaScript 32-bit integer semantics

JS bitwise operators coerce their operands with ToInt32 (two's complement,
wrap modulo 2^32) and shifts use the shift count modulo 32. -/

/-- ToUint32: wrap an integer into `[0, 2^32)`. -/
def toUInt32n (x : Int) : Nat := (x % 4294967296).toNat

/-- ToInt32: wrap an integer into `[-2^31, 2^31)` (two's complement). -/
def toInt32 (x : Int) : Int :=
  let u := toUInt32n x
  if u < 2147483648 then (u : Int) else (u : Int) - 4294967296

/-- JS `a | b` on 32-bit integers. -/
def jsOr (a b : Int) : Int :=
  toInt32 (Int.ofNat (Nat.lor (toUInt32n a) (toUInt32n b)))

/-- JS `a & b` on 32-bit integers. -/
def jsAnd (a b : Int) : Int :=
  toInt32 (Int.ofNat (Nat.land (toUInt32n a) (toUInt32n b)))

/-- JS `a << n` (shift count taken modulo 32). -/
def jsShl (a : Int) (n : Nat) : Int :=
  toInt32 (Int.ofNat ((toUInt32n a) <<< (n % 32)))

/-- JS `a >> n` (sign-propagating right shift; arithmetic shift = floor
division by a power of two). -/
def jsShrS (a : Int) (n : Nat) : Int :=
  Int.fdiv (toInt32 a) (2 ^ (n % 32))

/-- JS `~a` (bitwise complement, `~x = -x - 1` on 32-bit integers). -/
def jsNot (a : Int) : Int := toInt32 (-(toInt32 a) - 1)

/-! ### Polyline decoder (`decodePolyline`, server.js)

A decoded point.  The JS code divides the integer accumulators by `1e5`
producing doubles; we keep the exact value as a rational. -/

structure Coord where
  lat : ℚ
  lng : ℚ
deriving DecidableEq, Repr

/-- One varint read of `decodePolyline`'s inner `do … while (byte >= 0x20)`
loop, operating on the list of remaining character codes.  Reading past the
end of the string (`charCodeAt` returns NaN) makes `byte` NaN; `NaN & 0x1f`
coerces to `0`, so `result |= 0 << shift` leaves `result` (as an int32), and
`NaN >= 0x20` is false, ending the loop.  That is the `[]` case. -/
def readVarint : List Nat → Nat → Int → Int × List Nat
  | [], _, result => (toInt32 result, [])
  | c :: rest, shift, result =>
    let byte : Int := (c : Int) - 63
    let r := jsOr result (jsShl (jsAnd byte 31) shift)
    if 32 ≤ byte then readVarint rest (shift + 5) r else (r, rest)

/-- The zig-zag step of `decodePolyline`:
`(result & 1) !== 0 ? ~(result >> 1) : result >> 1`. -/
def zigzagDecode (result : Int) : Int :=
  if jsAnd result 1 ≠ 0 then jsNot (jsShrS result 1) else jsShrS result 1

/-- The outer `while (index < encoded.length)` loop of `decodePolyline`.
The loop consumes at least one character per iteration, so fuel equal to the
number of remaining characters suffices (proved in `decodeLoop_fuel`). -/
def decodeLoop : Nat → List Nat → Int → Int → List Coord
  | 0, _, _, _ => []
  | _, [], _, _ => []
  | fuel + 1, c :: rest, lat, lng =>
    let p1 := readVarint (c :: rest) 0 0
    let lat1 := lat + zigzagDecode p1.1
    let p2 := readVarint p1.2 0 0
    let lng1 := lng + zigzagDecode p2.1
    { lat := Rat.divInt lat1 100000, lng := Rat.divInt lng1 100000 }
      :: decodeLoop fuel p2.2 lat1 lng1

/-- `decodePolyline(encoded)` from server.js. -/
def decodePolyline (encoded : String) : List Coord :=
  let codes := encoded.data.map Char.toNat
  decodeLoop codes.length codes 0 0

/-- The sequence of zig-zag-decoded (Δlat, Δlng) pairs read from a string;
same recursion structure as `decodeLoop`, without the accumulators. -/
def pairDeltas : Nat → List Nat → List (Int × Int)
  | 0, _ => []
  | _, [] => []
  | fuel + 1, c :: rest =>
    let p1 := readVarint (c :: rest) 0 0
    let p2 := readVarint p1.2 0 0
    (zigzagDecode p1.1, zigzagDecode p2.1) :: pairDeltas fuel p2.2

/-- The delta pairs encoded by a string. -/
def stringDeltas (encoded : String) : List (Int × Int) :=
  let codes := encoded.data.map Char.toNat
  pairDeltas codes.length codes

/-- Specification-side decoder: each emitted point is the cumulative sum of
all preceding deltas (accumulators starting at zero) divided by 1e5. -/
def polylineSpecGo : Int → Int → List (Int × Int) → List Coord
  | _, _, [] => []
  | lat, lng, (a, b) :: ds =>
    { lat := Rat.divInt (lat + a) 100000, lng := Rat.divInt (lng + b) 100000 }
      :: polylineSpecGo (lat + a) (lng + b) ds

/-- Cumulative-sum reading of a delta list, accumulators starting at zero. -/
def polylineSpec (ds : List (Int × Int)) : List Coord :=
  polylineSpecGo 0 0 ds

/-! ### String helpers (JS `String.prototype.includes`, `padStart`) -/

/-- `charsLead needle hay`: `needle` is an initial run of `hay`. -/
def charsLead : List Char → List Char → Bool
  | [], _ => true
  | _ :: _, [] => false
  | c :: cs, d :: ds => c == d && charsLead cs ds

/-- `charsHas hay needle`: `needle` occurs contiguously in `hay`. -/
def charsHas : List Char → List Char → Bool
  | [], needle => needle.isEmpty
  | c :: t, needle => charsLead needle (c :: t) || charsHas t needle

/-- JS `hay.includes(needle)`. -/
def strHas (hay needle : String) : Bool := charsHas hay.data needle.data

/-- JS `s.toLowerCase()` (ASCII, via `Char.toLower`), on the character
list so that it evaluates in the kernel. -/
def strToLower (s : String) : String := ⟨s.data.map Char.toLower⟩

/-- JS `n.toString().padStart(2, "0")`. -/
def pad2 (n : Nat) : String :=
  let s := toString n
  if s.length < 2 then "0" ++ s else s

/-- `formatDuration(seconds)` from server.js: "HH:MM:SS" when at least one
hour, else "MM:SS", all fields zero-padded to two digits. -/
def formatDuration (seconds : Nat) : String :=
  let hours := seconds / 3600
  let minutes := (seconds % 3600) / 60
  let secs := seconds % 60
  if hours > 0 then pad2 hours ++ ":" ++ pad2 minutes ++ ":" ++ pad2 secs
  else pad2 minutes ++ ":" ++ pad2 secs

/-- JS `x.toFixed(1)` (server.js applies it to `distance / 1000`), modelled
exactly on rationals as round-half-away-from-zero to one decimal place.
(The double-precision tie-breaking quirks of `toFixed` are not observable
by any claim.) -/
def toFixed1 (q : ℚ) : ℚ :=
  if q < 0 then -(Rat.divInt ⌊-q * 10 + 1 / 2⌋ 10) else Rat.divInt ⌊q * 10 + 1 / 2⌋ 10

/-! ### Data model -/

/-- The `map` sub-object of a Strava activity. -/
structure PolyMap where
  summary_polyline : Option String
  polyline : Option String
deriving DecidableEq, Repr

/-- An upstream (Strava-shaped) activity record.  `none` models a missing /
null JSON field. -/
structure RawActivity where
  id : Nat
  name : String
  type : String
  distance : ℚ
  moving_time : Nat
  workout_type : Option Int
  trainer : Bool
  manual : Bool
  commute : Bool
  start_latlng : Option (List ℚ)
  map : Option PolyMap
  total_elevation_gain : ℚ
  average_speed : ℚ
  start_date : String
deriving DecidableEq, Repr

/-- A canonical activity record as persisted to DynamoDB (`processedActivity`
in `fetchStravaActivities`, `detailedActivity` in the detail route).  Summary
records leave the detail-only fields `none`; `athlete_id` is `none` until the
sync pipeline tags the record.  The write-time `stored_at` timestamp carries
no logic and is omitted. -/
structure Activity where
  id : Nat
  athlete_id : Option String
  name : String
  type : Option String
  distance : ℚ
  time : String
  country : String
  isRace : Bool
  coordinates : List Coord
  elevation_gain : Option ℚ
  average_speed : Option ℚ
  start_date : Option String
deriving DecidableEq, Repr

/-- The `strava-activities` table: an association list keyed by activity id
(first match wins, as a key-value store). -/
abbrev Store := List (Nat × Activity)

/-- `GetCommand` point lookup by id. -/
def lookupStore (s : Store) (id : Nat) : Option Activity :=
  (s.find? (fun p => p.1 == id)).map (fun p => p.2)

/-- A `PutRequest`: DynamoDB put overwrites the item with the same key. -/
def upsertStore (s : Store) (a : Activity) : Store :=
  (a.id, a) :: s.filter (fun p => p.1 != a.id)

/-- Effect on the table of putting a list of items in order. -/
def upsertAll (s : Store) (l : List Activity) : Store := l.foldl upsertStore s

/-! ### Country resolver (`getCountryFromCoordinates` and helpers) -/

/-- Static coordinate-range fallback table
(`getCountryFromCoordinateRanges`, server.js). -/
def getCountryFromCoordinateRanges (lat lng : ℚ) : String :=
  if lat ≥ 35.8 ∧ lat ≤ 71.2 ∧ lng ≥ -31.3 ∧ lng ≤ 69.1 then
    if lat ≥ 42.3 ∧ lat ≤ 51.1 ∧ lng ≥ -5.1 ∧ lng ≤ 8.2 then "France"
    else if lat ≥ 47.3 ∧ lat ≤ 55.1 ∧ lng ≥ 5.9 ∧ lng ≤ 15.0 then "Germany"
    else if lat ≥ 49.9 ∧ lat ≤ 60.9 ∧ lng ≥ -8.2 ∧ lng ≤ 1.8 then "United Kingdom"
    else if lat ≥ 36.0 ∧ lat ≤ 47.1 ∧ lng ≥ 6.6 ∧ lng ≤ 18.5 then "Italy"
    else if lat ≥ 35.9 ∧ lat ≤ 43.8 ∧ lng ≥ -9.5 ∧ lng ≤ -6.2 then "Spain"
    else "Europe"
  else if lat ≥ 25.1 ∧ lat ≤ 49.4 ∧ lng ≥ -125.0 ∧ lng ≤ -66.9 then "United States"
  else if lat ≥ 41.7 ∧ lat ≤ 83.1 ∧ lng ≥ -141.0 ∧ lng ≤ -52.6 then "Canada"
  else if lat ≥ 25.6 ∧ lat ≤ 26.3 ∧ lng ≥ 50.4 ∧ lng ≤ 50.8 then "Bahrain"
  else if lat ≥ -47.0 ∧ lat ≤ -10.0 ∧ lng ≥ 113.0 ∧ lng ≤ 154.0 then "Australia"
  else "Other"

/-- Outcome of one geocoding tier, as observed by the `try`/`catch` wrappers
in `getCountryFromCoordinates`: `.error ()` models a throw (missing key,
quota, zero results, timeout, network error), `.ok c` a returned country
string. -/
abbrev TierResult := Except Unit String

/-- A tier's result is used iff the call returned and the value is truthy
and not `"Unknown"` (`if (country && country !== "Unknown")`). -/
def tierAccepts (r : TierResult) : Option String :=
  match r with
  | .ok c => if c != "" && c != "Unknown" then some c else none
  | .error _ => none

/-- `getCountryFromCoordinates(startLatlng)` from server.js, with the two
network tiers supplied as oracles.  `none` / a list of length ≠ 2 is the
malformed-input guard (`!startLatlng || startLatlng.length !== 2`). -/
def getCountryFromCoordinates (startLatlng : Option (List ℚ))
    (googleRes nominatimRes : TierResult) : String :=
  match startLatlng with
  | none => "Unknown"
  | some [lat, lng] =>
    match tierAccepts googleRes with
    | some c => c
    | none =>
      match tierAccepts nominatimRes with
      | some c => c
      | none => getCountryFromCoordinateRanges lat lng
  | some _ => "Unknown"

/-- Per-coordinate geocoding oracle: the Google and Nominatim outcomes the
two tiers would produce for that coordinate. -/
abbrev GeoOracle := Coord → TierResult × TierResult

/-! ### Activity normalizer (`fetchStravaActivities` body, `mapStravaType`) -/

/-- `mapStravaType` from server.js (`typeMap[stravaType] || null`; the
virtual types map to `null` explicitly, unknown types by fallback). -/
def mapStravaType (stravaType : String) : Option String :=
  if stravaType == "Run" then some "run"
  else if stravaType == "Ride" then some "ride"
  else if stravaType == "VirtualRide" then none
  else if stravaType == "VirtualRun" then none
  else if stravaType == "Swim" then some "swim"
  else if stravaType == "Walk" then some "run"
  else if stravaType == "Hike" then some "run"
  else if stravaType == "TrailRun" then some "run"
  else none

/-- The closed supported-type check
(`["run", "ride", "swim"].includes(activityType)`). -/
def typeSupported (t : Option String) : Bool :=
  t == some "run" || t == some "ride" || t == some "swim"

/-- JS truthiness of an optional string (absent and `""` are falsy). -/
def optStrTruthy : Option String → Bool
  | none => false
  | some s => s != ""

/-- The virtual/indoor exclusion filter at the top of the
`fetchStravaActivities` per-activity loop. -/
def excludedSummary (a : RawActivity) : Bool :=
  a.trainer || a.manual || (!a.commute && a.trainer)
    || a.type == "VirtualRide" || a.type == "VirtualRun"
    || strHas (strToLower a.name) "zwift" || strHas (strToLower a.name) "peloton"
    || strHas (strToLower a.name) "virtual" || strHas (strToLower a.name) "indoor"
    || strHas (strToLower a.name) "trainer" || strHas (strToLower a.name) "treadmill"
    || a.start_latlng.isNone || a.start_latlng == some []

/-- `!activity.map || (!activity.map.summary_polyline && !activity.map.polyline)`. -/
def noGpsData (a : RawActivity) : Bool :=
  match a.map with
  | none => true
  | some m => !(optStrTruthy m.summary_polyline) && !(optStrTruthy m.polyline)

/-- `activity.map?.summary_polyline ? decodePolyline(...) : []`. -/
def summaryCoordinates (a : RawActivity) : List Coord :=
  match a.map with
  | none => []
  | some m =>
    match m.summary_polyline with
    | some p => if p == "" then [] else decodePolyline p
    | none => []

/-- `workout_type === 1 || name.toLowerCase().includes("race")`. -/
def isRaceOf (a : RawActivity) : Bool :=
  a.workout_type == some 1 || strHas (strToLower a.name) "race"

/-- The per-activity body of the `fetchStravaActivities` loop: `none` when
the record is skipped, otherwise the summary-level `processedActivity`
(coordinates truncated to the first 20 points). -/
def normalizeSummary (geo : GeoOracle) (a : RawActivity) : Option Activity :=
  if excludedSummary a then none
  else if !(typeSupported (mapStravaType a.type)) then none
  else if noGpsData a then none
  else
    let coordinates := summaryCoordinates a
    if coordinates.length < 3 then none
    else
      let fc := coordinates.headD ⟨0, 0⟩
      let g := geo fc
      some { id := a.id, athlete_id := none, name := a.name,
             type := mapStravaType a.type,
             distance := toFixed1 (a.distance / 1000),
             time := formatDuration a.moving_time,
             country := getCountryFromCoordinates (some [fc.lat, fc.lng]) g.1 g.2,
             isRace := isRaceOf a,
             coordinates := coordinates.take 20,
             elevation_gain := none, average_speed := none, start_date := none }

/-- `fetchStravaActivities`, with the paginated upstream responses already
concatenated into one list (pagination concatenates pages in order and the
per-record logic is page-independent; the 200 ms inter-page delay has no
data effect). -/
def fetchNormalize (geo : GeoOracle) (raws : List RawActivity) : List Activity :=
  raws.filterMap (normalizeSummary geo)

/-! ### Store gateway: `storeActivities` (dynamodb.js) -/

/-- A DynamoDB error as discriminated by the `storeActivities` catch block:
`ProvisionedThroughputExceededException` versus anything else. -/
inductive DbErr
  | throughput
  | other
deriving DecidableEq, Repr

/-- Failure oracle for one batch: for attempt number `rc` (0 = the initial
attempt, 1..3 = the retries), `some e` means `dynamodb.send` throws `e`,
`none` means it succeeds. -/
abbrev AttemptOracle := Nat → Option DbErr

/-- Per-run failure oracle: `fail i rc` is the outcome of attempt `rc` on
batch index `i`. -/
abbrev BatchOracle := Nat → AttemptOracle

/-- The `while (retryCount <= maxRetries)` retry loop of `storeActivities`
for one batch, with `maxRetries = 3`.  `retriesLeft` is `maxRetries -
retryCount`, so the guard `retryCount < maxRetries` is `retriesLeft ≠ 0`.
On success returns the list of backoff delays slept before it (the code
sleeps `Math.pow(2, retryCount) * 1000` ms before each retry); a
throughput error with retries left recurs, any other error — or a
throughput error with no retries left — propagates. -/
def runBatchAttemptsAux (fail : AttemptOracle) : Nat → Nat → Except DbErr (List Nat)
  | rc, retriesLeft =>
    match fail rc with
    | none => .ok []
    | some .other => .error .other
    | some .throughput =>
      match retriesLeft with
      | 0 => .error .throughput
      | rl + 1 =>
        match runBatchAttemptsAux fail (rc + 1) rl with
        | .ok ds => .ok (2 ^ (rc + 1) * 1000 :: ds)
        | .error e => .error e

/-- The full retry loop for one batch, starting at `retryCount = 0` with
`maxRetries = 3` (so at most 4 attempts in total). -/
def runBatchAttempts (fail : AttemptOracle) : Except DbErr (List Nat) :=
  runBatchAttemptsAux fail 0 3

/-- The batch-splitting loop of `storeActivities`
(`for (i = 0; i < activities.length; i += 25) batches.push(slice(i, i+25))`).
Fuel equal to the list length suffices since each step drops 25 ≥ 1
elements. -/
def chunk25Aux : Nat → List Activity → List (List Activity)
  | 0, _ => []
  | _, [] => []
  | fuel + 1, a :: t => (a :: t).take 25 :: chunk25Aux fuel ((a :: t).drop 25)

/-- Split a list of activities into DynamoDB batches of at most 25. -/
def chunk25 (l : List Activity) : List (List Activity) := chunk25Aux l.length l

/-- The batch loop of `storeActivities`: writes batches in order, each via
the retry loop; a batch whose retry loop fails propagates the error and
stops, leaving earlier batches written (no rollback).  Returns the updated
table together with `totalStored` or the error. -/
def storeActivitiesGo (fail : BatchOracle) : Store → List (List Activity) → Nat → Nat →
    Store × Except DbErr Nat
  | store, [], _, total => (store, .ok total)
  | store, b :: rest, i, total =>
    match runBatchAttempts (fail i) with
    | .ok _ => storeActivitiesGo fail (upsertAll store b) rest (i + 1) (total + b.length)
    | .error e => (store, .error e)

/-- `storeActivities(activities)` from dynamodb.js, acting on table `store`
under failure oracle `fail`.  (The 500/1000 ms inter-batch politeness sleep
has no data effect.) -/
def storeActivities (fail : BatchOracle) (store : Store) (activities : List Activity) :
    Store × Except DbErr Nat :=
  storeActivitiesGo fail store (chunk25 activities) 0 0

/-! ### `activityExists` and the background sync pipeline (server.js) -/

/-- Result oracle for the `GetCommand` issued by `activityExists` /
`getActivity`: `.error ()` models a rejected send. -/
abbrev LookupOracle := Nat → Except Unit (Option Activity)

/-- `activityExists(activityId)` from dynamodb.js: `!!result.Item`, with the
catch block returning `false` on any lookup error. -/
def activityExists (res : Except Unit (Option Activity)) : Bool :=
  match res with
  | .ok item => item.isSome
  | .error _ => false

/-- `{ ...activity, athlete_id: athlete_id.toString() }`. -/
def tagAthlete (athlete : String) (a : Activity) : Activity :=
  { a with athlete_id := some athlete }

/-- The incremental-sync loop of `performBackgroundSync`: walks the fetched
records in order, point-checks each id via `activityExists`, collects the
new ones (tagged with the athlete id) and counts the skipped ones. -/
def collectNew (lookupRes : LookupOracle) (athlete : String) :
    List Activity → List Activity × Nat
  | [] => ([], 0)
  | a :: rest =>
    let r := collectNew lookupRes athlete rest
    if activityExists (lookupRes a.id) then (r.1, r.2 + 1)
    else (tagAthlete athlete a :: r.1, r.2)

/-- `performBackgroundSync(athlete_id, accessToken, full_sync)` from
server.js, from the point where `fetchStravaActivities` has produced
`fetched`.  Returns the updated table and either `(storedCount,
skippedCount)` or the storage error (which the source catches and logs;
the counts are then never reported). -/
def performBackgroundSync (athlete : String) (lookupRes : LookupOracle)
    (fail : BatchOracle) (store : Store) (fetched : List Activity)
    (full_sync : Bool) : Store × Except DbErr (Nat × Nat) :=
  if full_sync then
    let tagged := fetched.map (tagAthlete athlete)
    match storeActivities fail store tagged with
    | (s1, .ok n) => (s1, .ok (n, 0))
    | (s1, .error e) => (s1, .error e)
  else
    let r := collectNew lookupRes athlete fetched
    if r.1.length > 0 then
      match storeActivities fail store r.1 with
      | (s1, .ok n) => (s1, .ok (n, r.2))
      | (s1, .error e) => (s1, .error e)
    else (store, .ok (0, r.2))

/-! ### Detail-fetch route (`app.get("/activities/:id")`, server.js) -/

/-- Result of the detail route, net of HTTP plumbing: the cached store
record, a 404 (virtual / insufficient GPS), or the freshly normalized
detail record. -/
inductive DetailOutcome
  | fromStore (a : Activity)
  | notFound
  | fetched (a : Activity)
deriving DecidableEq, Repr

/-- The virtual-activity guard of the detail route (narrower than the bulk
filter: no name-substring heuristics, no commute check, no summary-polyline
requirement). -/
def detailExcluded (r : RawActivity) : Bool :=
  r.trainer || r.manual || r.type == "VirtualRide" || r.type == "VirtualRun"
    || r.start_latlng.isNone || !(optStrTruthy (r.map.bind (fun m => m.polyline)))

/-- `stravaActivity.map?.polyline ? decodePolyline(...) : []`. -/
def detailCoordinates (r : RawActivity) : List Coord :=
  match r.map.bind (fun m => m.polyline) with
  | some p => if p == "" then [] else decodePolyline p
  | none => []

/-- The `detailedActivity` object built by the detail route: detail-level
normalization keeping every decoded coordinate of the full polyline. -/
def detailNormalize (geo : GeoOracle) (athlete : String) (r : RawActivity) : Activity :=
  let coordinates := detailCoordinates r
  let fc := coordinates.headD ⟨0, 0⟩
  let g := geo fc
  { id := r.id, athlete_id := some athlete, name := r.name,
    type := mapStravaType r.type,
    distance := toFixed1 (r.distance / 1000),
    time := formatDuration r.moving_time,
    country := getCountryFromCoordinates (some [fc.lat, fc.lng]) g.1 g.2,
    isRace := isRaceOf r,
    coordinates := coordinates,
    elevation_gain := some r.total_elevation_gain,
    average_speed := some r.average_speed,
    start_date := some r.start_date }

/-- The upstream-fetch arm of the detail route (after the DynamoDB cache
miss): virtual guard, decode, minimum-coordinate guard, then store (the
`storeActivities([detailedActivity])` call is wrapped in try/catch — a
storage failure is logged and the activity is returned anyway). -/
def detailFetchPath (store : Store) (athlete : String) (upstream : RawActivity)
    (geo : GeoOracle) (fail : BatchOracle) : Store × DetailOutcome :=
  if detailExcluded upstream then (store, .notFound)
  else
    let coordinates := detailCoordinates upstream
    if coordinates.length < 3 then (store, .notFound)
    else
      let act := detailNormalize geo athlete upstream
      let res := storeActivities fail store [act]
      (res.1, .fetched act)

/-- `app.get("/activities/:id")`: serve from DynamoDB when the stored record
has more than 20 coordinates, otherwise fall through to the upstream fetch
path.  (In the source the cache check is
`activity && activity.coordinates && activity.coordinates.length > 20`; an
array-valued `coordinates` field — even `[]` — is truthy in JS, and every
record this system writes carries one, so the check reduces to the length
comparison.) -/
def handleActivityDetail (store : Store) (idReq : Nat) (athlete : String)
    (upstream : RawActivity) (geo : GeoOracle) (fail : BatchOracle) :
    Store × DetailOutcome :=
  match lookupStore store idReq with
  | some a =>
    if a.coordinates.length > 20 then (store, .fromStore a)
    else detailFetchPath store athlete upstream geo fail
  | none => detailFetchPath store athlete upstream geo fail

/-! ### Geocoding rate limiter (`rateLimitedCall`, server.js)

The source keeps one mutable `lastApiCall[apiName]` timestamp per tier
(initially 0).  A caller reads `Date.now()`, computes the deficit, sleeps it
off if positive (an `await`, i.e. a suspension point), then stamps
`lastApiCall[apiName] = Date.now()` and issues its HTTP call.

`RLState`/`RLStep` model one tier under cooperative (single-threaded,
run-to-completion-between-awaits) interleaving of any number of concurrent
callers: `.runNow` is the no-deficit path (read, stamp and call with no
intervening await), `.runSleep` is the atomic read-and-schedule prefix of
the deficit path, `.wake` is its continuation (`setTimeout` may fire at or
after the requested deadline), and `.advance` is the passage of wall-clock
time.  `calls` records the start times of the issued HTTP calls in order. -/

/-- One caller of `rateLimitedCall`, between its suspension points. -/
inductive ProcPhase
  | idle
  | sleeping (wake : Nat)
  | finished
deriving DecidableEq, Repr

/-- Global state of one tier's rate limiter. -/
structure RLState where
  time : Nat
  last : Nat
  procs : List ProcPhase
  calls : List Nat
deriving DecidableEq, Repr

/-- Interleaved small-step semantics of `rateLimitedCall` for one tier with
minimum interval `interval`. -/
inductive RLStep (interval : Nat) : RLState → RLState → Prop
  | advance (s : RLState) (t : Nat) :
      s.time ≤ t →
      RLStep interval s { s with time := t }
  | runNow (s : RLState) (i : Nat) :
      s.procs.get? i = some .idle →
      interval ≤ s.time - s.last →
      RLStep interval s
        { s with procs := s.procs.set i .finished, last := s.time,
                 calls := s.calls ++ [s.time] }
  | runSleep (s : RLState) (i : Nat) :
      s.procs.get? i = some .idle →
      s.time - s.last < interval →
      RLStep interval s
        { s with procs := s.procs.set i (.sleeping (s.time + (interval - (s.time - s.last)))) }
  | wake (s : RLState) (i : Nat) (w : Nat) :
      s.procs.get? i = some (.sleeping w) →
      w ≤ s.time →
      RLStep interval s
        { s with procs := s.procs.set i .finished, last := s.time,
                 calls := s.calls ++ [s.time] }

/-- Reachability from an initial state under the rate-limiter semantics. -/
def RLReachable (interval : Nat) (init s : RLState) : Prop :=
  Relation.ReflTransGen (RLStep interval) init s

/-- Consecutive call starts are at least `interval` apart. -/
def gapsOK (interval : Nat) : List Nat → Bool
  | [] => true
  | [_] => true
  | a :: b :: t => decide (a + interval ≤ b) && gapsOK interval (b :: t)

/-- A single `rateLimitedCall(apiName, minIntervalMs)` invocation run
without interleaving, with an exact timer: entered at time `now` with the
tier's timestamp at `last`, it returns the time at which it stamps
`lastApiCall` and issues the call (which is also the new timestamp). -/
def rateLimitedCall (last now interval : Nat) : Nat :=
  if now - last < interval then now + (interval - (now - last)) else now

/-! ### Concrete instances used by witnesses and counterexamples -/

/-- Geocoding oracle on which both network tiers throw. -/
def geoNone : GeoOracle := fun _ => (.error (), .error ())

/-- Store oracle on which every write attempt succeeds. -/
def failNone : BatchOracle := fun _ _ => none

/-- Attempt oracle: the first three attempts throw
`ProvisionedThroughputExceededException`, the fourth succeeds. -/
def teThrice : AttemptOracle := fun rc => if rc < 3 then some .throughput else none

/-- Store oracle on which every attempt of every batch throws
`ProvisionedThroughputExceededException`. -/
def failTE : BatchOracle := fun _ _ => some .throughput

/-- Store oracle: batch 0 throughput-fails its first three attempts and then
succeeds; all other batches succeed immediately. -/
def failB0Thrice : BatchOracle := fun i => if i = 0 then teThrice else fun _ => none

/-- A minimal canonical activity with the given id. -/
def sampleActivity (n : Nat) : Activity :=
  { id := n, athlete_id := none, name := "Morning Run", type := some "run",
    distance := 5, time := "30:00", country := "France", isRace := false,
    coordinates := [], elevation_gain := none, average_speed := none,
    start_date := none }

/-- The reference encoded polyline of the Google polyline documentation. -/
def refPolyline : String := "_p~iF~ps|U_ulLnnqC_mqNvxq`@"

/-- An upstream activity of an unmapped sport type ("Kayaking") that passes
every check of the detail route's virtual guard. -/
def kayakRaw : RawActivity :=
  { id := 555, name := "Sea paddle", type := "Kayaking", distance := 5000,
    moving_time := 1800, workout_type := none, trainer := false,
    manual := false, commute := false, start_latlng := some [1, 2],
    map := some { summary_polyline := none, polyline := some refPolyline },
    total_elevation_gain := 10, average_speed := 2, start_date := "2024-01-01" }

/-- An ordinary upstream run with a full polyline. -/
def runRaw : RawActivity :=
  { id := 77, name := "Morning Run", type := "Run", distance := 5000,
    moving_time := 1800, workout_type := none, trainer := false,
    manual := false, commute := false, start_latlng := some [1, 2],
    map := some { summary_polyline := some refPolyline, polyline := some refPolyline },
    total_elevation_gain := 10, average_speed := 2, start_date := "2024-01-01" }

/-- Initial rate-limiter state: `lastApiCall[tier] = 0` as in the source,
with three callers about to invoke the tier. -/
def rlInit : RLState := { time := 0, last := 0, procs := [.idle, .idle, .idle], calls := [] }

/-! ### Lemmas about the polyline decoder -/

/-- A varint read never lengthens the remaining input. -/
theorem readVarint_length_le (l : List Nat) (sh : Nat) (r : Int) :
    (readVarint l sh r).2.length ≤ l.length := by
  induction l generalizing sh r with
  | nil => simp [readVarint]
  | cons c rest ih =>
    simp only [readVarint]
    split
    · exact le_trans (ih _ _) (Nat.le_succ _)
    · simp

/-- A varint read on a nonempty input consumes at least one character. -/
theorem readVarint_cons_length (c : Nat) (rest : List Nat) (sh : Nat) (r : Int) :
    (readVarint (c :: rest) sh r).2.length ≤ rest.length := by
  simp only [readVarint]
  split
  · exact readVarint_length_le _ _ _
  · simp

/-- The decode loop agrees with the cumulative-sum specification reading of
the delta stream, for any accumulator values. -/
theorem decodeLoop_eq_spec (fuel : Nat) (rest : List Nat) (lat lng : Int) :
    decodeLoop fuel rest lat lng = polylineSpecGo lat lng (pairDeltas fuel rest) := by
  induction fuel generalizing rest lat lng with
  | zero => simp [decodeLoop, pairDeltas, polylineSpecGo]
  | succ f ih =>
    cases rest with
    | nil => simp [decodeLoop, pairDeltas, polylineSpecGo]
    | cons c t => simp [decodeLoop, pairDeltas, polylineSpecGo, ih]

/-- The spec-side decoder emits one point per delta pair. -/
theorem polylineSpecGo_length (ds : List (Int × Int)) (lat lng : Int) :
    (polylineSpecGo lat lng ds).length = ds.length := by
  induction ds generalizing lat lng with
  | nil => simp [polylineSpecGo]
  | cons d t ih =>
    obtain ⟨a, b⟩ := d
    simp [polylineSpecGo, ih]

/-- Each iteration of the decode loop consumes at least one character, so
the output is no longer than the remaining input. -/
theorem decodeLoop_length_le (fuel : Nat) (rest : List Nat) (lat lng : Int) :
    (decodeLoop fuel rest lat lng).length ≤ rest.length := by
  induction fuel generalizing rest lat lng with
  | zero => simp [decodeLoop]
  | succ f ih =>
    cases rest with
    | nil => simp [decodeLoop]
    | cons c t =>
      simp only [decodeLoop, List.length_cons, Nat.succ_le_succ_iff]
      exact le_trans (ih _ _ _)
        (le_trans (readVarint_length_le _ _ _) (readVarint_cons_length _ _ _ _))

/-- Fuel at least the length of the remaining input is irrelevant: the
decode loop runs to the end of the string, i.e. the JS `while` loop
terminates with the same output. -/
theorem decodeLoop_fuel (fuel : Nat) (rest : List Nat) (lat lng : Int)
    (h : rest.length ≤ fuel) :
    decodeLoop fuel rest lat lng = decodeLoop rest.length rest lat lng := by
  induction fuel using Nat.strong_induction_on generalizing rest lat lng with
  | _ fuel ih =>
    match fuel, rest with
    | 0, rest =>
      interval_cases hr : rest.length
      · cases rest with
        | nil => rfl
        | cons c t => simp at hr
    | f + 1, [] => simp [decodeLoop]
    | f + 1, c :: t =>
      simp only [List.length_cons] at h ⊢
      simp only [decodeLoop]
      have h2 : ((readVarint (readVarint (c :: t) 0 0).2 0 0).2).length ≤ t.length :=
        le_trans (readVarint_length_le _ _ _) (readVarint_cons_length _ _ _ _)
      have ht : t.length ≤ f := Nat.succ_le_succ_iff.mp h
      rw [ih f (Nat.lt_succ_self _) _ _ _ (le_trans h2 ht),
        ih t.length (Nat.lt_succ_of_le ht) _ _ _ h2]

/-- C5: `decodePolyline` maps the empty string to the empty sequence and the
reference encoded string to the documented three-point sequence; and for
every string, each emitted point's latitude and longitude are the cumulative
sums (accumulators starting at zero) of all preceding zig-zag-decoded deltas
divided by 1e5, with exactly one output point per encoded coordinate pair. -/
theorem decodePolyline_reference_and_cumulative :
    decodePolyline "" = []
    ∧ decodePolyline "_p~iF~ps|U_ulLnnqC_mqNvxq`@"
        = [⟨38.5, -120.2⟩, ⟨40.7, -120.95⟩, ⟨43.252, -126.453⟩]
    ∧ ∀ s : String, decodePolyline s = polylineSpec (stringDeltas s)
        ∧ (decodePolyline s).length = (stringDeltas s).length := by
  refine ⟨rfl, ?_, ?_⟩
  · have h : decodePolyline "_p~iF~ps|U_ulLnnqC_mqNvxq`@"
        = [⟨Rat.divInt 3850000 100000, Rat.divInt (-12020000) 100000⟩,
           ⟨Rat.divInt 4070000 100000, Rat.divInt (-12095000) 100000⟩,
           ⟨Rat.divInt 4325200 100000, Rat.divInt (-12645300) 100000⟩] := by decide
    rw [h]
    norm_num [Rat.divInt_eq_div, Coord.mk.injEq]
  · intro s
    constructor
    · simpa only [decodePolyline, polylineSpec, stringDeltas]
        using decodeLoop_eq_spec (s.data.map Char.toNat).length (s.data.map Char.toNat) 0 0
    · simp only [decodePolyline, polylineSpec, stringDeltas, decodeLoop_eq_spec,
        polylineSpecGo_length]

/-- C10: `decodePolyline` is total.  For every input string the output is a
finite list no longer than the input; the loop's result is independent of
any fuel bound at least the input length (i.e. the JS `while` loop always
reaches the end of the string and terminates); and a truncated encoding —
here the reference string cut off mid-varint — yields a spurious final
coordinate (the out-of-bounds `charCodeAt` reads give NaN, whose bitwise
coercion to zero ends the varint loop with delta 0) instead of an error. -/
theorem decodePolyline_total :
    (∀ s : String, (decodePolyline s).length ≤ s.data.length)
    ∧ (∀ (fuel : Nat) (codes : List Nat) (lat lng : Int),
        codes.length ≤ fuel →
        decodeLoop fuel codes lat lng = decodeLoop codes.length codes lat lng)
    ∧ decodePolyline "_p~iF~ps|U_" = [⟨38.5, -120.2⟩, ⟨38.5, -120.2⟩] := by
  refine ⟨?_, decodeLoop_fuel, ?_⟩
  · intro s
    simpa only [decodePolyline, List.length_map]
      using decodeLoop_length_le (s.data.map Char.toNat).length (s.data.map Char.toNat) 0 0
  · have h : decodePolyline "_p~iF~ps|U_"
        = [⟨Rat.divInt 3850000 100000, Rat.divInt (-12020000) 100000⟩,
           ⟨Rat.divInt 3850000 100000, Rat.divInt (-12020000) 100000⟩] := by decide
    rw [h]
    norm_num [Rat.divInt_eq_div, Coord.mk.injEq]

/-- C10 witness: the totality statement at concrete inputs. -/
theorem decodePolyline_total_witness :
    (decodePolyline "_p~iF~ps|U_").length ≤ "_p~iF~ps|U_".data.length
    ∧ decodeLoop 99 [100] 0 0 = decodeLoop 1 [100] 0 0 :=
  ⟨decodePolyline_total.1 "_p~iF~ps|U_",
   by simpa using decodePolyline_total.2.1 99 [100] 0 0 (by decide)⟩

/-! ### Lemmas about the country resolver -/

/-- The static coordinate-range table never returns the empty string. -/
theorem ranges_ne_empty (lat lng : ℚ) : getCountryFromCoordinateRanges lat lng ≠ "" := by
  unfold getCountryFromCoordinateRanges
  repeat' split
  all_goals decide

/-- A geocoding tier's result is only used when it is a nonempty string. -/
theorem tierAccepts_ne_empty (r : TierResult) (c : String) (h : tierAccepts r = some c) :
    c ≠ "" := by
  cases r with
  | error e => simp [tierAccepts] at h
  | ok s =>
    simp only [tierAccepts] at h
    split at h
    · cases h
      rename_i hcond
      simpa using (Bool.and_eq_true_iff.mp hcond).1
    · cases h

/-- C4: `getCountryFromCoordinates` always terminates with a nonempty
country-name string, even when both network tiers throw or return
unknown/empty results: the static range table itself never returns the
empty string; a malformed input (missing, or not a 2-element pair) yields
`"Unknown"`; and a well-formed pair on which both tiers fall through yields
exactly the range-table result. -/
theorem getCountry_total_fallback :
    ∀ (inp : Option (List ℚ)) (g n : TierResult),
      getCountryFromCoordinates inp g n ≠ ""
      ∧ (∀ lat lng : ℚ, getCountryFromCoordinateRanges lat lng ≠ "")
      ∧ ((inp = none ∨ ∀ l, inp = some l → l.length ≠ 2) →
          getCountryFromCoordinates inp g n = "Unknown")
      ∧ (∀ lat lng : ℚ, inp = some [lat, lng] →
          tierAccepts g = none → tierAccepts n = none →
          getCountryFromCoordinates inp g n = getCountryFromCoordinateRanges lat lng) := by
  intro inp g n
  refine ⟨?_, fun lat lng => ranges_ne_empty lat lng, ?_, ?_⟩
  · match inp with
    | none => exact (by decide : ("Unknown" : String) ≠ "")
    | some [] => exact (by decide : ("Unknown" : String) ≠ "")
    | some [a] => exact (by decide : ("Unknown" : String) ≠ "")
    | some (a :: b :: c :: t) => exact (by decide : ("Unknown" : String) ≠ "")
    | some [lat, lng] =>
      simp only [getCountryFromCoordinates]
      split
      · rename_i c hc
        exact tierAccepts_ne_empty g c hc
      · split
        · rename_i c hc
          exact tierAccepts_ne_empty n c hc
        · exact ranges_ne_empty lat lng
  · intro h
    match inp with
    | none => rfl
    | some l =>
      have hl : l.length ≠ 2 := by
        cases h with
        | inl h0 => cases h0
        | inr h2 => exact h2 l rfl
      match l with
      | [] => rfl
      | [a] => rfl
      | [a, b] => exact absurd rfl hl
      | a :: b :: c :: t => rfl
  · intro lat lng hinp hg hn
    subst hinp
    simp only [getCountryFromCoordinates, hg, hn]

/-- C4 witness: with both tiers throwing, a well-formed pair resolves to the
range table and a missing pair resolves to "Unknown". -/
theorem getCountry_total_fallback_witness :
    getCountryFromCoordinates (some [52, 0]) (.error ()) (.error ())
      = getCountryFromCoordinateRanges 52 0
    ∧ getCountryFromCoordinates none (.error ()) (.error ()) = "Unknown" :=
  ⟨(getCountry_total_fallback (some [52, 0]) (.error ()) (.error ())).2.2.2 52 0 rfl rfl rfl,
   (getCountry_total_fallback none (.error ()) (.error ())).2.2.1 (Or.inl rfl)⟩


/-! ### Lemmas about the store gateway -/

/-- Folding puts over an empty list is the identity. -/
theorem upsertAll_nil (s : Store) : upsertAll s [] = s := rfl

/-- Folding puts over a cons. -/
theorem upsertAll_cons (s : Store) (a : Activity) (t : List Activity) :
    upsertAll s (a :: t) = upsertAll (upsertStore s a) t := rfl

/-- Folding puts over an append. -/
theorem upsertAll_append (s : Store) (l₁ l₂ : List Activity) :
    upsertAll s (l₁ ++ l₂) = upsertAll (upsertAll s l₁) l₂ :=
  List.foldl_append _ _ _ _

/-- Concatenating the batches gives back the input list, in order. -/
theorem chunk25Aux_flatten (fuel : Nat) (l : List Activity) (h : l.length ≤ fuel) :
    (chunk25Aux fuel l).flatten = l := by
  induction fuel using Nat.strong_induction_on generalizing l with
  | _ fuel ih =>
    match fuel, l with
    | 0, [] => rfl
    | 0, a :: t => simp at h
    | f + 1, [] => simp [chunk25Aux]
    | f + 1, a :: t =>
      simp only [chunk25Aux, List.flatten_cons]
      rw [ih f (Nat.lt_succ_self _) (List.drop 25 (a :: t))
        (by simp only [List.length_drop, List.length_cons] at h ⊢; omega)]
      exact List.take_append_drop _ _

/-- The number of batches is `⌈N / 25⌉`. -/
theorem chunk25Aux_length (fuel : Nat) (l : List Activity) (h : l.length ≤ fuel) :
    (chunk25Aux fuel l).length = (l.length + 24) / 25 := by
  induction fuel using Nat.strong_induction_on generalizing l with
  | _ fuel ih =>
    match fuel, l with
    | 0, [] => rfl
    | 0, a :: t => simp at h
    | f + 1, [] => simp [chunk25Aux]
    | f + 1, a :: t =>
      simp only [chunk25Aux, List.length_cons]
      rw [ih f (Nat.lt_succ_self _) (List.drop 25 (a :: t))
        (by simp only [List.length_drop, List.length_cons] at h ⊢; omega)]
      simp only [List.length_drop, List.length_cons]
      omega

/-- Every batch holds at most 25 items. -/
theorem chunk25Aux_sizes (fuel : Nat) (l : List Activity) (b : List Activity)
    (hb : b ∈ chunk25Aux fuel l) : b.length ≤ 25 := by
  induction fuel generalizing l with
  | zero => simp [chunk25Aux] at hb
  | succ f ih =>
    match l with
    | [] => simp [chunk25Aux] at hb
    | a :: t =>
      simp only [chunk25Aux, List.mem_cons] at hb
      cases hb with
      | inl h0 => simp [h0, List.length_take]
      | inr h1 => exact ih _ h1

/-- Every element of a batch comes from the input list. -/
theorem chunk25_mem (l : List Activity) (b : List Activity) (a : Activity)
    (hb : b ∈ chunk25 l) (ha : a ∈ b) : a ∈ l := by
  have hj : a ∈ (chunk25 l).flatten := List.mem_flatten.mpr ⟨b, hb, ha⟩
  simp only [chunk25] at hj
  rwa [chunk25Aux_flatten l.length l le_rfl] at hj

/-- Filtering out one key does not change lookups of other keys. -/
theorem find?_filter_ne (t : Store) (aid id : Nat) (hne : aid ≠ id) :
    (t.filter (fun p => p.1 != aid)).find? (fun p => p.1 == id)
      = t.find? (fun p => p.1 == id) := by
  induction t with
  | nil => rfl
  | cons p t ih =>
    by_cases hp : p.1 = aid
    · have hpid : (p.1 == id) = false := by
        simp only [beq_eq_false_iff_ne, ne_eq, hp]
        exact hne
      have h1 : (p.1 != aid) = false := by simp [hp]
      simp [List.filter_cons, h1, List.find?_cons, hpid, ih]
    · have h1 : (p.1 != aid) = true := by simpa using hp
      simp only [List.filter_cons, h1, if_true]
      cases hq : (p.1 == id) with
      | true => simp [List.find?_cons, hq]
      | false => simp [List.find?_cons, hq, ih]

/-- Point lookup after a single put: the put key is overwritten, all other
keys are untouched. -/
theorem lookup_upsert (s : Store) (a : Activity) (id : Nat) :
    lookupStore (upsertStore s a) id
      = if a.id = id then some a else lookupStore s id := by
  by_cases h : a.id = id
  · simp [lookupStore, upsertStore, List.find?_cons, h]
  · have hb : (a.id == id) = false := by simpa using h
    simp [lookupStore, upsertStore, List.find?_cons, hb, h, find?_filter_ne s a.id id h]

/-- Batched puts leave every key outside the batch untouched. -/
theorem lookup_upsertAll_frame (l : List Activity) (s : Store) (id : Nat)
    (h : ∀ a ∈ l, a.id ≠ id) :
    lookupStore (upsertAll s l) id = lookupStore s id := by
  induction l generalizing s with
  | nil => rfl
  | cons a t ih =>
    rw [upsertAll_cons, ih _ (fun b hb => h b (List.mem_cons_of_mem _ hb)),
      lookup_upsert, if_neg (h a (List.mem_cons_self _ _))]

/-- With distinct ids, every activity of a batched put is retrievable
afterwards. -/
theorem lookup_upsertAll_mem (l : List Activity) (s : Store) (a : Activity)
    (hnd : (l.map Activity.id).Nodup) (ha : a ∈ l) :
    lookupStore (upsertAll s l) a.id = some a := by
  induction l generalizing s with
  | nil => cases ha
  | cons b t ih =>
    simp only [List.map_cons, List.nodup_cons] at hnd
    cases ha with
    | head =>
      rw [upsertAll_cons, lookup_upsertAll_frame t _ _ ?_, lookup_upsert, if_pos rfl]
      intro c hc hce
      exact hnd.1 (hce ▸ List.mem_map_of_mem Activity.id hc)
    | tail _ hmem =>
      rw [upsertAll_cons]
      exact ih _ hnd.2 hmem

/-- Any key readable after a batched put was either already present with
that value or was one of the written activities. -/
theorem lookup_upsertAll_some (l : List Activity) (s : Store) (id : Nat) (act : Activity)
    (h : lookupStore (upsertAll s l) id = some act) :
    lookupStore s id = some act ∨ act ∈ l := by
  induction l generalizing s with
  | nil => exact Or.inl h
  | cons b t ih =>
    rw [upsertAll_cons] at h
    cases ih _ h with
    | inl h1 =>
      rw [lookup_upsert] at h1
      split at h1
      · cases h1
        exact Or.inr (List.mem_cons_self _ _)
      · exact Or.inl h1
    | inr h2 => exact Or.inr (List.mem_cons_of_mem _ h2)

/-- A batch whose first attempt succeeds completes its retry loop at once. -/
theorem runBatchAttempts_first (fail : AttemptOracle) (h : fail 0 = none) :
    runBatchAttempts fail = .ok [] := by
  simp [runBatchAttempts, runBatchAttemptsAux, h]

/-- A batch whose four attempts (the initial one and all three backoff
retries) all throw `ProvisionedThroughputExceededException` exhausts its
retries and propagates that error. -/
theorem runBatchAttempts_exhaust (fail : AttemptOracle)
    (h : ∀ rc ≤ 3, fail rc = some .throughput) :
    runBatchAttempts fail = .error .throughput := by
  simp [runBatchAttempts, runBatchAttemptsAux,
    h 0 (by omega), h 1 (by omega), h 2 (by omega), h 3 (by omega)]

/-- When every batch's first attempt succeeds, the batch loop writes every
batch in order and counts every item. -/
theorem storeActivitiesGo_success (fail : BatchOracle) (B : List (List Activity))
    (store : Store) (i0 tot : Nat) (h : ∀ i, fail i 0 = none) :
    storeActivitiesGo fail store B i0 tot
      = (upsertAll store B.flatten, .ok (tot + B.flatten.length)) := by
  induction B generalizing store i0 tot with
  | nil => simp [storeActivitiesGo, upsertAll_nil]
  | cons b rest ih =>
    simp only [storeActivitiesGo, runBatchAttempts_first _ (h i0)]
    rw [ih _ _ _, List.flatten_cons, upsertAll_append, List.length_append,
      ← Nat.add_assoc]

/-- The batch loop never touches a key outside its batches. -/
theorem storeActivitiesGo_frame (fail : BatchOracle) (B : List (List Activity))
    (store : Store) (i0 tot : Nat) (id : Nat)
    (h : ∀ b ∈ B, ∀ a ∈ b, a.id ≠ id) :
    lookupStore (storeActivitiesGo fail store B i0 tot).1 id = lookupStore store id := by
  induction B generalizing store i0 tot with
  | nil => rfl
  | cons b rest ih =>
    simp only [storeActivitiesGo]
    cases hr : runBatchAttempts (fail i0) with
    | ok ds =>
      rw [ih _ _ _ (fun c hc => h c (List.mem_cons_of_mem _ hc)),
        lookup_upsertAll_frame _ _ _ (h b (List.mem_cons_self _ _))]
    | error e => rfl

/-- Any key readable after the batch loop was already present with that
value or belongs to one of the batches. -/
theorem storeActivitiesGo_some (fail : BatchOracle) (B : List (List Activity))
    (store : Store) (i0 tot : Nat) (id : Nat) (act : Activity)
    (h : lookupStore (storeActivitiesGo fail store B i0 tot).1 id = some act) :
    lookupStore store id = some act ∨ ∃ b ∈ B, act ∈ b := by
  induction B generalizing store i0 tot with
  | nil => exact Or.inl h
  | cons b rest ih =>
    simp only [storeActivitiesGo] at h
    cases hr : runBatchAttempts (fail i0) with
    | ok ds =>
      rw [hr] at h
      cases ih _ _ _ h with
      | inl h1 =>
        cases lookup_upsertAll_some _ _ _ _ h1 with
        | inl h2 => exact Or.inl h2
        | inr h3 => exact Or.inr ⟨b, List.mem_cons_self _ _, h3⟩
      | inr h2 =>
        obtain ⟨c, hc, hac⟩ := h2
        exact Or.inr ⟨c, List.mem_cons_of_mem _ hc, hac⟩
    | error e =>
      rw [hr] at h
      exact Or.inl h

/-- If the first `i` batches succeed on their first attempt and batch `i`
exhausts its four attempts with throughput errors, the batch loop writes
exactly the first `i` batches (in order, not rolled back) and propagates
the throughput error, writing nothing further. -/
theorem storeActivitiesGo_abort (i : Nat) (fail : BatchOracle) (B : List (List Activity))
    (store : Store) (i0 tot : Nat)
    (hpre : ∀ j < i, fail (i0 + j) 0 = none)
    (hte : ∀ rc ≤ 3, fail (i0 + i) rc = some .throughput)
    (hlen : i < B.length) :
    storeActivitiesGo fail store B i0 tot
      = (upsertAll store ((B.take i).flatten), .error .throughput) := by
  induction i generalizing B store i0 tot with
  | zero =>
    match B with
    | [] => simp at hlen
    | b :: rest =>
      simp only [storeActivitiesGo,
        runBatchAttempts_exhaust _ (by simpa using hte), List.take_zero,
        List.flatten_nil, upsertAll_nil]
  | succ i ih =>
    match B with
    | [] => simp at hlen
    | b :: rest =>
      simp only [storeActivitiesGo,
        runBatchAttempts_first _ (by simpa using hpre 0 (Nat.succ_pos _))]
      rw [ih rest (upsertAll store b) (i0 + 1) (tot + b.length)
        (fun j hj => by
          have h2 := hpre (j + 1) (by omega)
          have he : i0 + (j + 1) = i0 + 1 + j := by omega
          rwa [he] at h2)
        (fun rc hrc => by
          have h2 := hte rc hrc
          have he : i0 + (i + 1) = i0 + 1 + i := by omega
          rwa [he] at h2)
        (by simpa using hlen)]
      rw [List.take_succ_cons, List.flatten_cons, upsertAll_append]

/-- A run in which every batch's first attempt succeeds upserts every
activity in input order and reports the full count. -/
theorem storeActivities_allok (fail : BatchOracle) (store : Store)
    (acts : List Activity) (h : ∀ i, fail i 0 = none) :
    storeActivities fail store acts = (upsertAll store acts, .ok acts.length) := by
  rw [storeActivities, storeActivitiesGo_success fail _ store 0 0 h, chunk25,
    chunk25Aux_flatten acts.length acts le_rfl, Nat.zero_add]

/-- `storeActivities` never touches a key outside its input, whatever the
failure oracle does. -/
theorem storeActivities_frame (fail : BatchOracle) (store : Store)
    (acts : List Activity) (id : Nat) (h : ∀ a ∈ acts, a.id ≠ id) :
    lookupStore (storeActivities fail store acts).1 id = lookupStore store id :=
  storeActivitiesGo_frame fail _ store 0 0 id
    (fun b hb a ha => h a (chunk25_mem acts b a hb ha))

/-- Any key readable after `storeActivities` was already present with that
value or is one of the input activities. -/
theorem storeActivities_some (fail : BatchOracle) (store : Store)
    (acts : List Activity) (id : Nat) (act : Activity)
    (h : lookupStore (storeActivities fail store acts).1 id = some act) :
    lookupStore store id = some act ∨ act ∈ acts := by
  cases storeActivitiesGo_some fail _ store 0 0 id act h with
  | inl h1 => exact Or.inl h1
  | inr h2 =>
    obtain ⟨b, hb, hab⟩ := h2
    exact Or.inr (chunk25_mem acts b act hb hab)

/-- C2 counterexample: three consecutive throughput failures of a batch do
not propagate a failure — the loop retries a third time and the fourth
attempt can succeed, completing the run.  This negates the claim that a
batch failing 3 consecutive times with a throughput-exceeded error has its
failure propagated. -/
theorem storeActivities_three_failures_not_fatal :
    ¬ (∀ (fail : BatchOracle) (store : Store) (acts : List Activity) (i : Nat),
        i < (chunk25 acts).length →
        fail i 0 = some .throughput → fail i 1 = some .throughput →
        fail i 2 = some .throughput →
        ∃ e, (storeActivities fail store acts).2 = .error e) := by
  intro h
  obtain ⟨e, he⟩ := h failB0Thrice [] [sampleActivity 1] 0 (by decide) rfl rfl rfl
  rw [show (storeActivities failB0Thrice [] [sampleActivity 1]).2 = .ok 1 from rfl] at he
  cases he

/-- C2 (amended): `storeActivities` splits N activities into ⌈N/25⌉ batches
of at most 25 items whose concatenation, in order, is the input; if every
batch's first attempt succeeds the whole input is upserted; and if the
first `i` batches succeed while batch `i` throughput-fails on all four
attempts (the initial one and the three exponential-backoff retries), the
error is propagated, the first `i` batches stay written (no rollback) and
no later batch is written. -/
theorem storeActivities_batching_abort :
    ∀ (fail : BatchOracle) (store : Store) (acts : List Activity) (i : Nat),
      ((chunk25 acts).length = (acts.length + 24) / 25
        ∧ (chunk25 acts).flatten = acts
        ∧ ∀ b ∈ chunk25 acts, b.length ≤ 25)
      ∧ ((∀ i2, fail i2 0 = none) →
          storeActivities fail store acts = (upsertAll store acts, .ok acts.length))
      ∧ ((∀ j < i, fail j 0 = none) →
          (∀ rc ≤ 3, fail i rc = some .throughput) →
          i < (chunk25 acts).length →
          storeActivities fail store acts
            = (upsertAll store (((chunk25 acts).take i).flatten), .error .throughput)) := by
  intro fail store acts i
  refine ⟨⟨chunk25Aux_length acts.length acts le_rfl,
           chunk25Aux_flatten acts.length acts le_rfl,
           fun b hb => chunk25Aux_sizes acts.length acts b hb⟩,
          fun h => storeActivities_allok fail store acts h, ?_⟩
  intro hpre hte hlen
  rw [storeActivities, storeActivitiesGo_abort i fail _ store 0 0
    (fun j hj => by simpa using hpre j hj)
    (fun rc hrc => by simpa using hte rc hrc) hlen]

/-- C2 witness: a single batch that throughput-fails all four attempts
aborts the run with the throughput error and writes nothing. -/
theorem storeActivities_batching_abort_witness :
    storeActivities failTE [] [sampleActivity 1] = ([], .error .throughput)
    ∧ (chunk25 [sampleActivity 1]).length = (1 + 24) / 25 :=
  ⟨(storeActivities_batching_abort failTE [] [sampleActivity 1] 0).2.2
      (fun j hj => absurd hj (by omega)) (fun rc _ => rfl) (by decide),
   (storeActivities_batching_abort failTE [] [sampleActivity 1] 0).1.1⟩

/-- With an accurate lookup oracle, the incremental-sync loop selects (and
tags) exactly the fetched records whose id is absent from the store, in
order, and counts exactly the present ones as skipped. -/
theorem collectNew_spec (lookupRes : LookupOracle) (store : Store) (athlete : String)
    (fetched : List Activity)
    (hacc : ∀ id, lookupRes id = .ok (lookupStore store id)) :
    collectNew lookupRes athlete fetched
      = ((fetched.filter (fun a => (lookupStore store a.id).isNone)).map (tagAthlete athlete),
         (fetched.filter (fun a => (lookupStore store a.id).isSome)).length) := by
  induction fetched with
  | nil => rfl
  | cons a t ih =>
    simp only [collectNew, ih, hacc a.id, activityExists, List.filter_cons]
    cases hl : lookupStore store a.id with
    | none => simp
    | some v => simp

/-- C1: with an accurate existence oracle and successful writes, an
incremental sync includes a fetched record (after an individual point
lookup of its id) iff the id is absent from the store, counting present
ids as skipped, and never changes the stored value of an id already
present; a full sync performs no existence check and upserts every fetched
record (tagged with the athlete id), overwriting any stored record with
the same id. -/
theorem sync_dedup_modes :
    ∀ (athlete : String) (lookupRes : LookupOracle) (fail : BatchOracle)
      (store : Store) (fetched : List Activity),
      (∀ id, lookupRes id = .ok (lookupStore store id)) →
      (∀ i, fail i 0 = none) →
      (collectNew lookupRes athlete fetched
        = ((fetched.filter (fun a => (lookupStore store a.id).isNone)).map (tagAthlete athlete),
           (fetched.filter (fun a => (lookupStore store a.id).isSome)).length))
      ∧ (∀ (id : Nat) (a0 : Activity), lookupStore store id = some a0 →
          lookupStore (performBackgroundSync athlete lookupRes fail store fetched false).1 id
            = some a0)
      ∧ ((fetched.map Activity.id).Nodup →
          ∀ a ∈ fetched,
            lookupStore (performBackgroundSync athlete lookupRes fail store fetched true).1 a.id
              = some (tagAthlete athlete a)) := by
  intro athlete lookupRes fail store fetched hacc hok
  refine ⟨collectNew_spec lookupRes store athlete fetched hacc, ?_, ?_⟩
  · intro id a0 h0
    have hfr : ∀ a ∈ (collectNew lookupRes athlete fetched).1, a.id ≠ id := by
      rw [collectNew_spec lookupRes store athlete fetched hacc]
      intro a ha
      simp only [List.mem_map] at ha
      obtain ⟨b, hb, rfl⟩ := ha
      simp only [List.mem_filter] at hb
      intro he
      rw [show (tagAthlete athlete b).id = b.id from rfl] at he
      rw [he, h0] at hb
      simp at hb
    simp only [performBackgroundSync]
    rw [if_neg (by decide : ¬(false = true))]
    split
    · rw [storeActivities_allok _ _ _ hok]
      show lookupStore (upsertAll store (collectNew lookupRes athlete fetched).1) id = some a0
      rw [lookup_upsertAll_frame _ store id hfr]
      exact h0
    · exact h0
  · intro hnd a ha
    have htag : (fetched.map (tagAthlete athlete)).map Activity.id
        = fetched.map Activity.id := by
      simp [List.map_map, Function.comp, tagAthlete]
    simp only [performBackgroundSync]
    rw [if_pos trivial, storeActivities_allok _ _ _ hok]
    have := lookup_upsertAll_mem (fetched.map (tagAthlete athlete)) store
      (tagAthlete athlete a) (htag ▸ hnd) (List.mem_map_of_mem _ ha)
    simpa using this

/-- C1 witness: syncing `[id 7, id 8]` against a store holding id 7 —
incrementally, id 7 keeps its stored value; fully, id 8 is stored tagged. -/
theorem sync_dedup_modes_witness :
    lookupStore (performBackgroundSync "42"
        (fun id => .ok (lookupStore [(7, sampleActivity 7)] id)) failNone
        [(7, sampleActivity 7)] [sampleActivity 7, sampleActivity 8] false).1 7
      = some (sampleActivity 7)
    ∧ lookupStore (performBackgroundSync "42"
        (fun id => .ok (lookupStore [(7, sampleActivity 7)] id)) failNone
        [(7, sampleActivity 7)] [sampleActivity 7, sampleActivity 8] true).1 8
      = some (tagAthlete "42" (sampleActivity 8)) := by
  have h := sync_dedup_modes "42"
    (fun id => .ok (lookupStore [(7, sampleActivity 7)] id)) failNone
    [(7, sampleActivity 7)] [sampleActivity 7, sampleActivity 8]
    (fun id => rfl) (fun i => rfl)
  refine ⟨h.2.1 7 (sampleActivity 7) rfl, ?_⟩
  exact h.2.2 (by decide) (sampleActivity 8)
    (List.mem_cons_of_mem _ (List.mem_cons_self _ _))

/-- C9: a full-mode sync run only upserts ids fetched in that run — any
stored record whose id is not among the fetched records is unchanged
afterwards (the sync path performs no deletions), whatever the write
oracle does (even mid-run failures touch no foreign key). -/
theorem fullSync_frame :
    ∀ (athlete : String) (lookupRes : LookupOracle) (fail : BatchOracle)
      (store : Store) (fetched : List Activity) (id : Nat),
      (∀ a ∈ fetched, a.id ≠ id) →
      lookupStore (performBackgroundSync athlete lookupRes fail store fetched true).1 id
        = lookupStore store id := by
  intro athlete lookupRes fail store fetched id h
  have hfr : ∀ a ∈ fetched.map (tagAthlete athlete), a.id ≠ id := by
    intro a ha
    simp only [List.mem_map] at ha
    obtain ⟨b, hb, rfl⟩ := ha
    exact h b hb
  have hmain := storeActivities_frame fail store (fetched.map (tagAthlete athlete)) id hfr
  simp only [performBackgroundSync]
  cases hs : storeActivities fail store (fetched.map (tagAthlete athlete)) with
  | mk s1 r =>
    cases r with
    | ok n => simpa [hs] using hmain
    | error e => simpa [hs] using hmain

/-- C9 witness: a full sync of a foreign id (with an always-failing store,
showing deletions never happen either) leaves id 7 untouched. -/
theorem fullSync_frame_witness :
    lookupStore (performBackgroundSync "42" (fun _ => .ok none) failTE
        [(7, sampleActivity 7)] [sampleActivity 8] true).1 7
      = lookupStore [(7, sampleActivity 7)] 7 :=
  fullSync_frame "42" (fun _ => .ok none) failTE [(7, sampleActivity 7)]
    [sampleActivity 8] 7
    (fun a ha => by
      rw [List.mem_singleton] at ha
      subst ha
      decide)

/-- C8: `activityExists` swallows lookup failures — a lookup error makes it
report `false` — and consequently an incremental sync treats a fetched
record whose existence check errored as new and includes it (tagged) in
the list to be stored. -/
theorem activityExists_error_swallow :
    ∀ (lookupRes : LookupOracle) (athlete : String) (fetched : List Activity)
      (a : Activity), a ∈ fetched → lookupRes a.id = .error () →
      activityExists (lookupRes a.id) = false
      ∧ tagAthlete athlete a ∈ (collectNew lookupRes athlete fetched).1 := by
  intro lookupRes athlete fetched a ha herr
  have hex : activityExists (lookupRes a.id) = false := by rw [herr]; rfl
  refine ⟨hex, ?_⟩
  induction fetched with
  | nil => cases ha
  | cons b t ih =>
    simp only [collectNew]
    rcases List.mem_cons.mp ha with rfl | hmem
    · rw [hex, if_neg (by decide : ¬(false = true))]
      exact List.mem_cons_self _ _
    · cases hb : activityExists (lookupRes b.id) with
      | true =>
        rw [if_pos (rfl : true = true)]
        exact ih hmem
      | false =>
        rw [if_neg (by decide : ¬(false = true))]
        exact List.mem_cons_of_mem _ (ih hmem)

/-- C8 witness: with an always-erroring lookup oracle, a fetched record is
reported absent and selected for storage. -/
theorem activityExists_error_swallow_witness :
    activityExists ((fun _ => (.error () : Except Unit (Option Activity)))
        (sampleActivity 3).id) = false
    ∧ tagAthlete "42" (sampleActivity 3)
      ∈ (collectNew (fun _ => .error ()) "42" [sampleActivity 3]).1 :=
  activityExists_error_swallow (fun _ => .error ()) "42" [sampleActivity 3]
    (sampleActivity 3) (List.mem_singleton.mpr rfl) rfl

/-! ### Lemmas about the detail route and the type invariant -/

/-- The detail-route fetch arm: rejection exactly on the virtual guard or
fewer than 3 decoded coordinates (store untouched); otherwise the detail
record is stored and returned. -/
theorem detailFetchPath_spec (store : Store) (athlete : String) (upstream : RawActivity)
    (geo : GeoOracle) (fail : BatchOracle) :
    ((detailExcluded upstream = true ∨ (detailCoordinates upstream).length < 3) →
      detailFetchPath store athlete upstream geo fail = (store, .notFound))
    ∧ (detailExcluded upstream = false → 3 ≤ (detailCoordinates upstream).length →
        (∀ i, fail i 0 = none) →
        detailFetchPath store athlete upstream geo fail
          = (upsertStore store (detailNormalize geo athlete upstream),
             .fetched (detailNormalize geo athlete upstream))) := by
  constructor
  · intro h
    unfold detailFetchPath
    cases hexc : detailExcluded upstream with
    | true => rw [if_pos rfl]
    | false =>
      rw [if_neg (by decide : ¬(false = true))]
      cases h with
      | inl h1 => cases hexc ▸ h1
      | inr h2 => rw [if_pos h2]
  · intro hexc hlen hok
    unfold detailFetchPath
    rw [hexc, if_neg (by decide : ¬(false = true)), if_neg (Nat.not_lt.mpr hlen)]
    show ((storeActivities fail store [detailNormalize geo athlete upstream]).1,
          DetailOutcome.fetched (detailNormalize geo athlete upstream))
        = (upsertStore store (detailNormalize geo athlete upstream),
           DetailOutcome.fetched (detailNormalize geo athlete upstream))
    rw [storeActivities_allok _ _ _ hok]
    rfl

/-- On a cache miss — no stored record, or a stored record with at most 20
coordinates — the detail route falls through to the upstream fetch arm. -/
theorem handleDetail_miss (store : Store) (idReq : Nat) (athlete : String)
    (upstream : RawActivity) (geo : GeoOracle) (fail : BatchOracle)
    (h : lookupStore store idReq = none
      ∨ ∃ a, lookupStore store idReq = some a ∧ a.coordinates.length ≤ 20) :
    handleActivityDetail store idReq athlete upstream geo fail
      = detailFetchPath store athlete upstream geo fail := by
  unfold handleActivityDetail
  cases h with
  | inl hnone => rw [hnone]
  | inr h2 =>
    obtain ⟨a, ha, hle⟩ := h2
    rw [ha]
    show (if a.coordinates.length > 20 then (store, DetailOutcome.fromStore a)
          else detailFetchPath store athlete upstream geo fail)
        = detailFetchPath store athlete upstream geo fail
    rw [if_neg (Nat.not_lt.mpr hle)]

/-- C6: the detail route serves a stored record with more than 20
coordinates directly, leaving the store unchanged; otherwise it goes
upstream: the narrower virtual guard (trainer / manual / virtual type /
missing start coordinate / missing polyline) or fewer than 3 decoded
coordinates yields not-found with nothing stored, and otherwise the
detail-normalized record (all decoded coordinates kept) is stored —
overwriting any entry with that identifier — and returned. -/
theorem detailRoute_cache_reject_store :
    ∀ (store : Store) (idReq : Nat) (athlete : String) (upstream : RawActivity)
      (geo : GeoOracle) (fail : BatchOracle),
      (∀ a, lookupStore store idReq = some a → 20 < a.coordinates.length →
        handleActivityDetail store idReq athlete upstream geo fail
          = (store, .fromStore a))
      ∧ ((lookupStore store idReq = none
            ∨ ∃ a, lookupStore store idReq = some a ∧ a.coordinates.length ≤ 20) →
          ((detailExcluded upstream = true ∨ (detailCoordinates upstream).length < 3) →
            handleActivityDetail store idReq athlete upstream geo fail
              = (store, .notFound))
          ∧ (detailExcluded upstream = false → 3 ≤ (detailCoordinates upstream).length →
              (∀ i, fail i 0 = none) →
              handleActivityDetail store idReq athlete upstream geo fail
                = (upsertStore store (detailNormalize geo athlete upstream),
                   .fetched (detailNormalize geo athlete upstream))
              ∧ lookupStore (upsertStore store (detailNormalize geo athlete upstream))
                  (detailNormalize geo athlete upstream).id
                = some (detailNormalize geo athlete upstream))) := by
  intro store idReq athlete upstream geo fail
  constructor
  · intro a h1 h2
    unfold handleActivityDetail
    rw [h1]
    show (if a.coordinates.length > 20 then (store, DetailOutcome.fromStore a)
          else detailFetchPath store athlete upstream geo fail)
        = (store, DetailOutcome.fromStore a)
    rw [if_pos h2]
  · intro hmiss
    constructor
    · intro hrej
      rw [handleDetail_miss store idReq athlete upstream geo fail hmiss]
      exact (detailFetchPath_spec store athlete upstream geo fail).1 hrej
    · intro hexc hlen hok
      refine ⟨?_, ?_⟩
      · rw [handleDetail_miss store idReq athlete upstream geo fail hmiss]
        exact (detailFetchPath_spec store athlete upstream geo fail).2 hexc hlen hok
      · rw [lookup_upsert, if_pos rfl]

/-- C6 witness: an ordinary run fetched by id on an empty store is
normalized, stored and returned; the stored entry is retrievable. -/
theorem detailRoute_cache_reject_store_witness :
    handleActivityDetail [] 77 "42" runRaw geoNone failNone
      = (upsertStore [] (detailNormalize geoNone "42" runRaw),
         .fetched (detailNormalize geoNone "42" runRaw))
    ∧ lookupStore (upsertStore [] (detailNormalize geoNone "42" runRaw))
        (detailNormalize geoNone "42" runRaw).id
      = some (detailNormalize geoNone "42" runRaw) :=
  ((detailRoute_cache_reject_store [] 77 "42" runRaw geoNone failNone).2
    (Or.inl rfl)).2 (by decide) (by decide) (fun i => rfl)

/-- Every record the bulk normalizer emits carries a supported type tag
(the `["run","ride","swim"].includes` guard). -/
theorem normalizeSummary_type (geo : GeoOracle) (a : RawActivity) (act : Activity)
    (h : normalizeSummary geo a = some act) : typeSupported act.type = true := by
  simp only [normalizeSummary] at h
  split at h
  · cases h
  · split at h
    · cases h
    · split at h
      · cases h
      · split at h
        · cases h
        · rename_i hexc htype hgps hcoords
          cases h
          simpa using htype

/-- Everything the incremental-sync loop selects is a tagged fetched
record. -/
theorem collectNew_sub (lookupRes : LookupOracle) (athlete : String)
    (l : List Activity) (x : Activity)
    (hx : x ∈ (collectNew lookupRes athlete l).1) :
    ∃ a ∈ l, x = tagAthlete athlete a := by
  induction l with
  | nil => cases hx
  | cons b t ih =>
    simp only [collectNew] at hx
    split at hx
    · obtain ⟨a, ha, he⟩ := ih hx
      exact ⟨a, List.mem_cons_of_mem _ ha, he⟩
    · rcases List.mem_cons.mp hx with rfl | hm
      · exact ⟨b, List.mem_cons_self _ _, rfl⟩
      · obtain ⟨a, ha, he⟩ := ih hm
        exact ⟨a, List.mem_cons_of_mem _ ha, he⟩

/-- Any key readable after a sync run was already present with that value
or is a tagged fetched record. -/
theorem performBackgroundSync_some (athlete : String) (lookupRes : LookupOracle)
    (fail : BatchOracle) (store : Store) (fetched : List Activity)
    (full_sync : Bool) (id : Nat) (act : Activity)
    (h : lookupStore (performBackgroundSync athlete lookupRes fail store
        fetched full_sync).1 id = some act) :
    lookupStore store id = some act ∨ ∃ a ∈ fetched, act = tagAthlete athlete a := by
  cases full_sync with
  | true =>
    have h1 : (performBackgroundSync athlete lookupRes fail store fetched true).1
        = (storeActivities fail store (fetched.map (tagAthlete athlete))).1 := by
      simp only [performBackgroundSync]
      rw [if_pos trivial]
      cases hs : storeActivities fail store (fetched.map (tagAthlete athlete)) with
      | mk s1 r => cases r <;> simp [hs]
    rw [h1] at h
    cases storeActivities_some _ _ _ _ _ h with
    | inl h2 => exact Or.inl h2
    | inr h3 =>
      obtain ⟨b, hb, rfl⟩ := List.mem_map.mp h3
      exact Or.inr ⟨b, hb, rfl⟩
  | false =>
    have h1 : (performBackgroundSync athlete lookupRes fail store fetched false).1
        = (if (collectNew lookupRes athlete fetched).1.length > 0
           then (storeActivities fail store (collectNew lookupRes athlete fetched).1).1
           else store) := by
      simp only [performBackgroundSync]
      rw [if_neg (by decide : ¬(false = true))]
      split
      · cases hs : storeActivities fail store (collectNew lookupRes athlete fetched).1 with
        | mk s1 r => cases r <;> simp [hs]
      · rfl
    rw [h1] at h
    split at h
    · cases storeActivities_some _ _ _ _ _ h with
      | inl h2 => exact Or.inl h2
      | inr h3 =>
        obtain ⟨b, hb, he⟩ := collectNew_sub lookupRes athlete fetched _ h3
        exact Or.inr ⟨b, hb, he⟩
    · exact Or.inl h

/-- C7 counterexample: the detail route persists a record with a null
mapped type — fetching an upstream "Kayaking" activity (not virtual, with
a valid polyline) stores it with `type = none`, outside the closed set
{run, ride, swim}. -/
theorem detailRoute_stores_unmapped_type :
    (lookupStore (handleActivityDetail [] 555 "42" kayakRaw geoNone failNone).1 555).map
        Activity.type = some none
    ∧ typeSupported none = false :=
  ⟨by decide, rfl⟩

/-- C7 (amended): every record persisted by the bulk sync pipeline —
whether full or incremental, and whatever value the store previously held —
carries a type tag in the closed set {run, ride, swim}; the detail-fetch
path, by contrast, stores `mapStravaType` of the upstream type without
checking it, so an unmapped upstream type is persisted as a null type
(see the counterexample). -/
theorem syncPipeline_type_closed :
    ∀ (geo : GeoOracle) (raws : List RawActivity) (athlete : String)
      (lookupRes : LookupOracle) (fail : BatchOracle) (store : Store)
      (full_sync : Bool) (id : Nat) (act : Activity),
      lookupStore (performBackgroundSync athlete lookupRes fail store
          (fetchNormalize geo raws) full_sync).1 id = some act →
      lookupStore store id = some act ∨ typeSupported act.type = true := by
  intro geo raws athlete lookupRes fail store full_sync id act h
  cases performBackgroundSync_some _ _ _ _ _ _ _ _ h with
  | inl h1 => exact Or.inl h1
  | inr h2 =>
    obtain ⟨a, ha, rfl⟩ := h2
    obtain ⟨r, hr, hna⟩ := List.mem_filterMap.mp ha
    exact Or.inr (normalizeSummary_type geo r a hna)

/-- C7 witness: after a full sync of one normalized run, the record stored
under id 77 satisfies the amended invariant. -/
theorem syncPipeline_type_closed_witness :
    lookupStore ([] : Store) 77
        = some (tagAthlete "42" ((normalizeSummary geoNone runRaw).getD (sampleActivity 0)))
      ∨ typeSupported
          (tagAthlete "42" ((normalizeSummary geoNone runRaw).getD (sampleActivity 0))).type
        = true :=
  syncPipeline_type_closed geoNone [runRaw] "42" (fun _ => .ok none) failNone [] true 77
    (tagAthlete "42" ((normalizeSummary geoNone runRaw).getD (sampleActivity 0))) (by rfl)

/-! ### Rate limiter: concurrency violation and sequential guarantee -/

/-- A single invocation entered with the tier timestamp at `last` never
starts its call earlier than `last + interval`. -/
theorem rateLimitedCall_lower (last now interval : Nat) (h : last ≤ now) :
    last + interval ≤ rateLimitedCall last now interval := by
  unfold rateLimitedCall
  split <;> omega

/-- C3 counterexample: the claimed invariant — along every execution of the
rate limiter, consecutive call starts of one tier are at least the minimum
interval apart — is false for the Google tier (100 ms): two callers that
both read the tier timestamp (and both enter their deficit sleep) before
either has re-stamped it wake together and issue calls 0 ms apart.
Concretely, after a call at t=1000, two callers arriving at t=1050 both
sleep until t=1100 and both call at t=1100. -/
theorem rateLimiter_concurrent_violation :
    ¬ (∀ s : RLState, RLReachable 100 rlInit s → gapsOK 100 s.calls = true) := by
  intro h
  have st1 : RLStep 100 rlInit ⟨1000, 0, [.idle, .idle, .idle], []⟩ :=
    RLStep.advance rlInit 1000 (by decide)
  have st2 : RLStep 100 ⟨1000, 0, [.idle, .idle, .idle], []⟩
      ⟨1000, 1000, [.finished, .idle, .idle], [1000]⟩ :=
    RLStep.runNow ⟨1000, 0, [.idle, .idle, .idle], []⟩ 0 (by decide) (by decide)
  have st3 : RLStep 100 ⟨1000, 1000, [.finished, .idle, .idle], [1000]⟩
      ⟨1050, 1000, [.finished, .idle, .idle], [1000]⟩ :=
    RLStep.advance ⟨1000, 1000, [.finished, .idle, .idle], [1000]⟩ 1050 (by decide)
  have st4 : RLStep 100 ⟨1050, 1000, [.finished, .idle, .idle], [1000]⟩
      ⟨1050, 1000, [.finished, .sleeping 1100, .idle], [1000]⟩ :=
    RLStep.runSleep ⟨1050, 1000, [.finished, .idle, .idle], [1000]⟩ 1 (by decide) (by decide)
  have st5 : RLStep 100 ⟨1050, 1000, [.finished, .sleeping 1100, .idle], [1000]⟩
      ⟨1050, 1000, [.finished, .sleeping 1100, .sleeping 1100], [1000]⟩ :=
    RLStep.runSleep ⟨1050, 1000, [.finished, .sleeping 1100, .idle], [1000]⟩ 2
      (by decide) (by decide)
  have st6 : RLStep 100 ⟨1050, 1000, [.finished, .sleeping 1100, .sleeping 1100], [1000]⟩
      ⟨1100, 1000, [.finished, .sleeping 1100, .sleeping 1100], [1000]⟩ :=
    RLStep.advance ⟨1050, 1000, [.finished, .sleeping 1100, .sleeping 1100], [1000]⟩ 1100
      (by decide)
  have st7 : RLStep 100 ⟨1100, 1000, [.finished, .sleeping 1100, .sleeping 1100], [1000]⟩
      ⟨1100, 1100, [.finished, .finished, .sleeping 1100], [1000, 1100]⟩ :=
    RLStep.wake ⟨1100, 1000, [.finished, .sleeping 1100, .sleeping 1100], [1000]⟩ 1 1100
      (by decide) (by decide)
  have st8 : RLStep 100 ⟨1100, 1100, [.finished, .finished, .sleeping 1100], [1000, 1100]⟩
      ⟨1100, 1100, [.finished, .finished, .finished], [1000, 1100, 1100]⟩ :=
    RLStep.wake ⟨1100, 1100, [.finished, .finished, .sleeping 1100], [1000, 1100]⟩ 2 1100
      (by decide) (by decide)
  have hre : RLReachable 100 rlInit
      ⟨1100, 1100, [.finished, .finished, .finished], [1000, 1100, 1100]⟩ :=
    Relation.ReflTransGen.tail
      (Relation.ReflTransGen.tail
        (Relation.ReflTransGen.tail
          (Relation.ReflTransGen.tail
            (Relation.ReflTransGen.tail
              (Relation.ReflTransGen.tail
                (Relation.ReflTransGen.tail
                  (Relation.ReflTransGen.tail Relation.ReflTransGen.refl st1)
                  st2) st3) st4) st5) st6) st7) st8
  exact absurd (h _ hre) (by decide)

/-- C3 (amended): each `rateLimitedCall` invocation delays so that its call
start is at least the tier's minimum interval after the tier timestamp it
observed on entry; hence for two invocations run back to back (the second
entering no earlier than the first's stamp, as when callers are actually
serialized) the two call starts are at least the interval apart.  Two
overlapping callers, however, can both observe the old timestamp and
violate the interval (see the counterexample): the code itself enforces no
serialization. -/
theorem rateLimitedCall_sequential_gap :
    ∀ (interval last t1 t2 : Nat),
      (last ≤ t1 → last + interval ≤ rateLimitedCall last t1 interval)
      ∧ (rateLimitedCall last t1 interval ≤ t2 →
          rateLimitedCall last t1 interval + interval
            ≤ rateLimitedCall (rateLimitedCall last t1 interval) t2 interval) := by
  intro interval last t1 t2
  exact ⟨fun h => rateLimitedCall_lower last t1 interval h,
         fun h => rateLimitedCall_lower (rateLimitedCall last t1 interval) t2 interval h⟩

/-- C3 witness: with the Google tier's 100 ms interval, a call stamped at
t=1000 forces a second, non-overlapping invocation arriving at t=1050 to
start no earlier than t=1100. -/
theorem rateLimitedCall_sequential_gap_witness :
    (0 + 100 ≤ rateLimitedCall 0 1000 100)
    ∧ (rateLimitedCall 0 1000 100 + 100
        ≤ rateLimitedCall (rateLimitedCall 0 1000 100) 1050 100) :=
  ⟨(rateLimitedCall_sequential_gap 100 0 1000 1050).1 (by decide),
   (rateLimitedCall_sequential_gap 100 0 1000 1050).2 (by decide)⟩
